import Mathlib

/-!
Verification development for the Timezone Converter API
(src/timezone_backend/src/api/main.py).

The service is a FastAPI application with three endpoints:
a health check, a timezone listing, and a wall-clock time conversion
built on datetime.strptime / pytz.  The embedding below models

* the naive timestamp values produced by datetime.strptime and the exact
  language accepted by strptime with format "%Y-%m-%d %H:%M"
  (CPython Lib/_strptime.py compiles the format to the regular expression
  (\d\d\d\d)-(1[0-2]|0[1-9]|[1-9])-(3[01]|[12]\d|0[1-9]|[1-9]| [1-9])\s+
  (2[0-3]|[0-1]\d|\d):([0-5]\d|\d), anchored, with the whole input
  consumed; the datetime constructor then rejects calendar-invalid
  dates and year 0),
* strftime with the same format: month, day, hour and minute are
  zero-padded to two digits, while %Y is delegated to the platform
  strftime, which on Linux/glibc renders the year as an unpadded decimal
  number (four digits only from year 1000 on),
* pytz timezone objects (a static fixed-offset zone such as pytz.utc and
  DstTzInfo zones given by a transition table in UTC), pytz
  DstTzInfo.localize with its default is_dst=False, and
  datetime.astimezone / fromutc,
* the two pydantic validators of TimeConversionRequest, the three route
  handlers, and the FastAPI layer around them (a pydantic validation
  failure is answered by the framework with HTTP 422 and a structured
  list of field errors; an HTTPException raised by the handler is
  answered with its status code, here 400).

Character classes \d and \s are modelled over ASCII; the Python regexes
additionally match some non-ASCII digits and spaces, which no statement
below touches.  The timezone database itself is third-party data shipped
with pytz, not code of this repository; pytzModel below is a faithful
fragment of it sufficient for the claims (offsets and the 2023 DST
transitions of the zones involved).
-/

/-- A timezone-naive timestamp with minute precision, as produced by
datetime.strptime with format "%Y-%m-%d %H:%M". -/
structure NaiveDT where
  y : Nat
  m : Nat
  d : Nat
  h : Nat
  mi : Nat
deriving DecidableEq, Repr

/-- Proleptic Gregorian leap-year rule, as in Python datetime. -/
def leapYear (y : Nat) : Bool :=
  y % 4 = 0 && (y % 100 ≠ 0 || y % 400 = 0)

/-- Length of a month, as in Python datetime. -/
def daysInMonth (y m : Nat) : Nat :=
  match m with
  | 2 => if leapYear y then 29 else 28
  | 4 => 30
  | 6 => 30
  | 9 => 30
  | 11 => 30
  | _ => 31

/-- Field ranges enforced by the datetime constructor, except the year
bounds: calendar-valid month/day and in-range time of day. -/
def structValid (t : NaiveDT) : Prop :=
  1 ≤ t.m ∧ t.m ≤ 12 ∧ 1 ≤ t.d ∧ t.d ≤ daysInMonth t.y t.m ∧ t.h ≤ 23 ∧ t.mi ≤ 59

instance (t : NaiveDT) : Decidable (structValid t) := by
  unfold structValid; infer_instance

/-- Full validity of a datetime value: the datetime constructor accepts
exactly these field values (MINYEAR = 1, MAXYEAR = 9999). -/
def dtValid (t : NaiveDT) : Prop :=
  1 ≤ t.y ∧ t.y ≤ 9999 ∧ structValid t

instance (t : NaiveDT) : Decidable (dtValid t) := by
  unfold dtValid; infer_instance

/-- The decimal digit characters used by strftime's zero-padded output. -/
def digitChar : Nat → Char
  | 0 => '0'
  | 1 => '1'
  | 2 => '2'
  | 3 => '3'
  | 4 => '4'
  | 5 => '5'
  | 6 => '6'
  | 7 => '7'
  | 8 => '8'
  | _ => '9'

/-- Numeric value of an ASCII digit character (the regex class \d). -/
def digitVal (c : Char) : Option Nat :=
  if 48 ≤ c.toNat ∧ c.toNat ≤ 57 then some (c.toNat - 48) else none

/-- ASCII whitespace (the regex class \s): a space in a strptime format
string is compiled to \s+ by CPython. -/
def isSpaceCh (c : Char) : Bool :=
  c = ' ' || c = '\t' || c = '\n' || c = '\r' || c = '\x0b' || c = '\x0c'

/-- Two-digit zero-padded rendering, as strftime's %m, %d, %H, %M.  The
mod 10 keeps the digits meaningful for any argument; every value actually
formatted is at most two digits wide, where this agrees with strftime. -/
def pad2 (n : Nat) : List Char :=
  [digitChar (n / 10 % 10), digitChar (n % 10)]

/-- Four-digit zero-padded rendering, as strftime's %Y on a year between
1 and 9999. -/
def pad4 (n : Nat) : List Char :=
  [digitChar (n / 1000 % 10), digitChar (n / 100 % 10),
   digitChar (n / 10 % 10), digitChar (n % 10)]

/-- strftime %Y as glibc renders it: the year as an unpadded decimal
number, so years below 1000 produce fewer than four digits (verified
CPython-on-Linux behavior; datetime years never exceed 9999, so the
final branch is exact on the reachable range). -/
def yearChars (n : Nat) : List Char :=
  if n < 10 then [digitChar n]
  else if n < 100 then [digitChar (n / 10), digitChar (n % 10)]
  else if n < 1000 then [digitChar (n / 100), digitChar (n / 10 % 10), digitChar (n % 10)]
  else pad4 n

/-- strftime("%Y-%m-%d %H:%M") on a naive timestamp, as the program
runs it on Linux/glibc: two-digit zero-padded month, day, hour and
minute, unpadded year. -/
def formatDT (t : NaiveDT) : String :=
  String.mk (yearChars t.y ++ '-' :: (pad2 t.m ++ '-' :: (pad2 t.d ++ ' ' :: (pad2 t.h ++ ':' :: pad2 t.mi))))

/-- The fully zero-padded rendering YYYY-MM-DD HH:MM of a timestamp,
the fixed pattern the claims speak about (a spec-side definition for
comparison); it coincides with strftime output exactly for four-digit
years. -/
def paddedRender (t : NaiveDT) : String :=
  String.mk (pad4 t.y ++ '-' :: (pad2 t.m ++ '-' :: (pad2 t.d ++ ' ' :: (pad2 t.h ++ ':' :: pad2 t.mi))))

/-- One digit of input (the parser for a single \d). -/
def readDigit : List Char → Option (Nat × List Char)
  | c :: rest => (digitVal c).map fun v => (v, rest)
  | [] => none

/-- A literal character of the format string. -/
def expectChar (c : Char) : List Char → Option (List Char)
  | x :: rest => if x = c then some rest else none
  | [] => none

/-- The \s+ that a space in the format compiles to: one or more
whitespace characters, consumed greedily. -/
def expectSpaces : List Char → Option (List Char)
  | x :: rest => if isSpaceCh x then some (rest.dropWhile isSpaceCh) else none
  | [] => none

/-- The month field of strptime: regex 1[0-2]|0[1-9]|[1-9].  The
alternatives are tried in order; committing to a two-digit alternative is
safe because the following format character is never a digit. -/
def matchMonth : List Char → Option (Nat × List Char)
  | c1 :: c2 :: rest =>
    match digitVal c1, digitVal c2 with
    | some v1, some v2 =>
      if v1 = 1 ∧ v2 ≤ 2 then some (10 + v2, rest)
      else if v1 = 0 ∧ 1 ≤ v2 then some (v2, rest)
      else if 1 ≤ v1 then some (v1, c2 :: rest)
      else none
    | some v1, none => if 1 ≤ v1 then some (v1, c2 :: rest) else none
    | none, _ => none
  | [c1] =>
    match digitVal c1 with
    | some v1 => if 1 ≤ v1 then some (v1, []) else none
    | none => none
  | [] => none

/-- The day field of strptime: regex 3[01]|[12]\d|0[1-9]|[1-9]| [1-9].
The last alternative accepts a space-padded day such as " 5"; it can
only apply when the first character is not a digit, so trying it last
needs no backtracking. -/
def matchDay : List Char → Option (Nat × List Char)
  | c1 :: c2 :: rest =>
    match digitVal c1, digitVal c2 with
    | some v1, some v2 =>
      if v1 = 3 ∧ v2 ≤ 1 then some (30 + v2, rest)
      else if 1 ≤ v1 ∧ v1 ≤ 2 then some (10 * v1 + v2, rest)
      else if v1 = 0 ∧ 1 ≤ v2 then some (v2, rest)
      else if 1 ≤ v1 then some (v1, c2 :: rest)
      else none
    | some v1, none => if 1 ≤ v1 then some (v1, c2 :: rest) else none
    | none, some v2 => if c1 = ' ' ∧ 1 ≤ v2 then some (v2, rest) else none
    | none, none => none
  | [c1] =>
    match digitVal c1 with
    | some v1 => if 1 ≤ v1 then some (v1, []) else none
    | none => none
  | [] => none

/-- The hour field of strptime: regex 2[0-3]|[0-1]\d|\d. -/
def matchHour : List Char → Option (Nat × List Char)
  | c1 :: c2 :: rest =>
    match digitVal c1, digitVal c2 with
    | some v1, some v2 =>
      if v1 = 2 ∧ v2 ≤ 3 then some (20 + v2, rest)
      else if v1 ≤ 1 then some (10 * v1 + v2, rest)
      else some (v1, c2 :: rest)
    | some v1, none => some (v1, c2 :: rest)
    | none, _ => none
  | [c1] =>
    match digitVal c1 with
    | some v1 => some (v1, [])
    | none => none
  | [] => none

/-- The minute field of strptime: regex [0-5]\d|\d. -/
def matchMinute : List Char → Option (Nat × List Char)
  | c1 :: c2 :: rest =>
    match digitVal c1, digitVal c2 with
    | some v1, some v2 => if v1 ≤ 5 then some (10 * v1 + v2, rest) else some (v1, c2 :: rest)
    | some v1, none => some (v1, c2 :: rest)
    | none, _ => none
  | [c1] =>
    match digitVal c1 with
    | some v1 => some (v1, [])
    | none => none
  | [] => none

/-- datetime.strptime(s, "%Y-%m-%d %H:%M") on the character list of s:
the anchored regex must consume the whole input
("unconverted data remains" otherwise), and the datetime constructor
then enforces the calendar and the year range. -/
def parseTimeChars (cs : List Char) : Option NaiveDT := do
  let (a, cs) ← readDigit cs
  let (b, cs) ← readDigit cs
  let (c, cs) ← readDigit cs
  let (d, cs) ← readDigit cs
  let y := ((a * 10 + b) * 10 + c) * 10 + d
  let cs ← expectChar '-' cs
  let (mo, cs) ← matchMonth cs
  let cs ← expectChar '-' cs
  let (dy, cs) ← matchDay cs
  let cs ← expectSpaces cs
  let (hr, cs) ← matchHour cs
  let cs ← expectChar ':' cs
  let (mn, cs) ← matchMinute cs
  match cs with
  | [] =>
    if dtValid ⟨y, mo, dy, hr, mn⟩ then some ⟨y, mo, dy, hr, mn⟩ else none
  | _ => none

/-- datetime.strptime(s, "%Y-%m-%d %H:%M") as a partial function on
strings. -/
def parseTimeS (s : String) : Option NaiveDT :=
  parseTimeChars s.data

/-- The date one day later, time of day unchanged
(datetime plus timedelta(days=1)). -/
def nextDay (t : NaiveDT) : NaiveDT :=
  if t.d < daysInMonth t.y t.m then ⟨t.y, t.m, t.d + 1, t.h, t.mi⟩
  else if t.m < 12 then ⟨t.y, t.m + 1, 1, t.h, t.mi⟩
  else ⟨t.y + 1, 1, 1, t.h, t.mi⟩

/-- The date one day earlier, time of day unchanged
(datetime minus timedelta(days=1)). -/
def prevDay (t : NaiveDT) : NaiveDT :=
  if 1 < t.d then ⟨t.y, t.m, t.d - 1, t.h, t.mi⟩
  else if 1 < t.m then ⟨t.y, t.m - 1, daysInMonth t.y (t.m - 1), t.h, t.mi⟩
  else ⟨t.y - 1, 12, 31, t.h, t.mi⟩

/-- Shift a timestamp by k minutes, -1440 ≤ k ≤ 1440: datetime plus
timedelta(minutes=k).  All offsets the model adds are below a day, so at
most one day boundary is crossed. -/
def addMin (t : NaiveDT) (k : Int) : NaiveDT :=
  let tot : Int := (t.h * 60 + t.mi : Nat) + k
  if tot < 0 then
    let m2 := (tot + 1440).toNat
    let p := prevDay t
    ⟨p.y, p.m, p.d, m2 / 60, m2 % 60⟩
  else if tot < 1440 then
    let m2 := tot.toNat
    ⟨t.y, t.m, t.d, m2 / 60, m2 % 60⟩
  else
    let m2 := (tot - 1440).toNat
    let n := nextDay t
    ⟨n.y, n.m, n.d, m2 / 60, m2 % 60⟩

/-- Lexicographic comparison of naive timestamps (how Python compares
naive datetime values, and how pytz bisects its transition list). -/
def dtLe (a b : NaiveDT) : Bool :=
  if a.y ≠ b.y then a.y < b.y
  else if a.m ≠ b.m then a.m < b.m
  else if a.d ≠ b.d then a.d < b.d
  else if a.h ≠ b.h then a.h < b.h
  else a.mi ≤ b.mi

/-- One entry of a pytz transition_info: the total UTC offset in minutes
and whether the entry is a DST entry (bool(tzinfo._dst) in pytz). -/
structure TzInfo where
  off : Int
  isDst : Bool
deriving DecidableEq, Repr

/-- A pytz timezone object: either a fixed-offset StaticTzInfo (such as
pytz.utc), or a DstTzInfo with an initial info and a list of transitions,
each transition given by its UTC time and the info in force from then on,
in ascending order. -/
inductive Zone where
  | static (off : Int)
  | dst (first : TzInfo) (transitions : List (NaiveDT × TzInfo))
deriving DecidableEq, Repr

/-- The transition info in force at a given UTC time: the last transition
at or before it, as pytz's bisect_right lookup finds it. -/
def infoAt (first : TzInfo) : List (NaiveDT × TzInfo) → NaiveDT → TzInfo
  | [], _ => first
  | (tt, ti) :: rest, w => if dtLe tt w then infoAt ti rest w else first

/-- One probe of pytz DstTzInfo.localize: take the info in force around
the probe time, read the naive time as local time under that info, and
keep the interpretation if normalizing it reproduces the input wall
clock.  Returns the info the accepted interpretation carries. -/
def probeInfo (first : TzInfo) (trs : List (NaiveDT × TzInfo)) (t probe : NaiveDT) : Option TzInfo :=
  let e := infoAt first trs probe
  let u := addMin t (-e.off)
  let i := infoAt first trs u
  if addMin u i.off = t then some i else none

/-- The possible interpretations pytz localize collects by probing one
day before and one day after the naive time; interpretations denoting
the same instant (equal offsets, hence equal aware datetimes) are kept
once, as the Python set does. -/
def candidatesOf (first : TzInfo) (trs : List (NaiveDT × TzInfo)) (t : NaiveDT) : List TzInfo :=
  match probeInfo first trs t (prevDay t), probeInfo first trs t (nextDay t) with
  | some i1, some i2 => if i1.off = i2.off then [i1] else [i1, i2]
  | some i1, none => [i1]
  | none, some i2 => [i2]
  | none, none => []

/-- The element of a candidate list denoting the latest UTC instant: all
candidates share the input wall clock, so the latest instant is the
smallest offset.  This is the arm pytz picks for an ambiguous time when
no candidate matches is_dst=False. -/
def minOffInfo (i : TzInfo) : List TzInfo → TzInfo
  | [] => i
  | j :: rest => if j.off < i.off then minOffInfo j rest else minOffInfo i rest

/-- pytz DstTzInfo.localize(dt, is_dst=False) for a naive dt, returning
the aware result as wall clock plus chosen info.  Probing a day past dt
overflows the datetime range at its edges (OverflowError, message
"date value out of range").  A unique interpretation is returned as is;
for an ambiguous time the candidates matching is_dst=False are
preferred and the latest instant among the remaining candidates is
picked; for a nonexistent time pytz winds the clock back six hours,
localizes there and adds the six hours back, which the fuel counter
makes structurally terminating (transition gaps are a few hours wide, so
the recursion depth is at most a couple in any real zone). -/
def localizeFuel (first : TzInfo) (trs : List (NaiveDT × TzInfo)) :
    Nat → NaiveDT → Except String (NaiveDT × TzInfo)
  | 0, _ => .error ("recursion limit in localize")
  | n + 1, t =>
    if (t.y = 1 ∧ t.m = 1 ∧ t.d = 1) ∨ (t.y = 9999 ∧ t.m = 12 ∧ t.d = 31) then
      .error ("date value out of range")
    else
      match candidatesOf first trs t with
      | [] => (localizeFuel first trs n (addMin t (-360))).map fun p => (addMin p.1 360, p.2)
      | [i] => .ok (t, i)
      | i1 :: i2 :: rest =>
        let cand := i1 :: i2 :: rest
        let filtered := cand.filter fun i => i.isDst = false
        match filtered with
        | [i] => .ok (t, i)
        | [] => .ok (t, minOffInfo i1 (i2 :: rest))
        | j :: js => .ok (t, minOffInfo j js)

/-- localize on a zone object: a StaticTzInfo simply attaches itself to
the naive time; a DstTzInfo runs the probing algorithm above. -/
def localize (z : Zone) (t : NaiveDT) : Except String (NaiveDT × TzInfo) :=
  match z with
  | .static off => .ok (t, ⟨off, false⟩)
  | .dst first trs => localizeFuel first trs 8 t

/-- fromutc: the local wall clock of a UTC instant in the given zone. -/
def fromutc (z : Zone) (u : NaiveDT) : NaiveDT :=
  match z with
  | .static off => addMin u off
  | .dst first trs => addMin u ((infoAt first trs u).off)

/-- Offsets of a zone are bounded by a day (real tz offsets stay within
fourteen hours), so every shift the conversion adds crosses at most one
day boundary. -/
def zoneWF (z : Zone) : Bool :=
  match z with
  | .static off => decide (-1439 ≤ off ∧ off ≤ 1439)
  | .dst first trs =>
    decide (-1439 ≤ first.off ∧ first.off ≤ 1439) &&
      trs.all fun p => decide (-1439 ≤ p.2.off ∧ p.2.off ≤ 1439)

/-- The pytz runtime data the service touches: the all_timezones list the
validator checks against, and the zone objects pytz.timezone returns. -/
structure Pytz where
  all_timezones : List String
  zones : List (String × Zone)

/-- pytz.timezone: look a name up in the zone table
(UnknownTimeZoneError when absent). -/
def lookupZone (zs : List (String × Zone)) (name : String) : Option Zone :=
  (zs.find? fun p => p.1 = name).map Prod.snd

/-- pytz.utc: UTC, a StaticTzInfo of offset zero. -/
def tzUTC : Zone := .static 0

/-- Asia/Kolkata as pytz ships it, restricted to the era after 1945:
constant IST, UTC+05:30, no DST.  The pre-1945 historical offsets are
omitted; no statement below evaluates the zone there. -/
def tzKolkata : Zone := .dst ⟨330, false⟩ []

/-- America/New_York as pytz ships it, restricted to 2023: EST (UTC-5)
with a DST transition to EDT (UTC-4) at 2023-03-12 07:00 UTC and back at
2023-11-05 06:00 UTC.  Transitions of other years are omitted; no
statement below evaluates the zone there. -/
def tzNewYork : Zone :=
  .dst ⟨-300, false⟩
    [(⟨2023, 3, 12, 7, 0⟩, ⟨-240, true⟩), (⟨2023, 11, 5, 6, 0⟩, ⟨-300, false⟩)]

/-- The fragment of the pytz database the claims touch: all_timezones is
the alphabetically sorted name list (pytz.all_timezones is sorted, case
sensitive, and contains none of "Mars/Phobos", "utc"), and each name maps
to its zone object. -/
def pytzModel : Pytz :=
  { all_timezones := ["America/New_York", "Asia/Kolkata", "UTC"],
    zones := [("America/New_York", tzNewYork), ("Asia/Kolkata", tzKolkata), ("UTC", tzUTC)] }

/-- Request body of POST /convert-time (model TimeConversionRequest). -/
structure ConvRequest where
  time : String
  source_timezone : String
  target_timezone : String
deriving DecidableEq, Repr

/-- Response body of POST /convert-time (model TimeConversionResponse). -/
structure ConvResponse where
  original_time : String
  converted_time : String
  source_timezone : String
  target_timezone : String
deriving DecidableEq, Repr

/-- The validator TimeConversionRequest.validate_time_format: succeeds
iff datetime.strptime(v, "%Y-%m-%d %H:%M") does. -/
def validate_time_format (v : String) : Bool :=
  (parseTimeS v).isSome

/-- The validator TimeConversionRequest.validate_timezone: succeeds iff
v is a member of pytz.all_timezones. -/
def validate_timezone (all_tz : List String) (v : String) : Bool :=
  v ∈ all_tz

/-- The pydantic error messages of a request, in field declaration
order; the request model validates iff this list is empty. -/
def requestValidationErrors (p : Pytz) (req : ConvRequest) : List String :=
  (if validate_time_format req.time then []
   else ["time must be in format 'YYYY-MM-DD HH:MM' (24hr)"]) ++
  (if validate_timezone p.all_timezones req.source_timezone then []
   else [req.source_timezone ++ " is not a recognized timezone."]) ++
  (if validate_timezone p.all_timezones req.target_timezone then []
   else [req.target_timezone ++ " is not a recognized timezone."])

/-- The handler convert_time (main.py lines 100-115), after request
validation: parse the time, look both zones up, localize the naive time
in the source zone, convert the instant to the target zone
(astimezone computes the UTC instant of the aware datetime, checks the
datetime range, and applies fromutc of the target zone, again within the
datetime range), and format both wall clocks.  Any exception becomes an
error value, which the handler turns into HTTP 400. -/
def convert_time (p : Pytz) (req : ConvRequest) : Except String ConvResponse :=
  match parseTimeS req.time with
  | none => .error ("time data " ++ req.time ++ " does not match format %Y-%m-%d %H:%M")
  | some t =>
    match lookupZone p.zones req.source_timezone with
    | none => .error req.source_timezone
    | some src =>
      match lookupZone p.zones req.target_timezone with
      | none => .error req.target_timezone
      | some tgt =>
        match localize src t with
        | .error e => .error e
        | .ok (w, i) =>
          let u := addMin w (-i.off)
          if u.y = 0 ∨ 9999 < u.y then .error ("date value out of range")
          else
            let cw := fromutc tgt u
            if cw.y = 0 ∨ 9999 < cw.y then .error ("date value out of range")
            else .ok ⟨formatDT w, formatDT cw, req.source_timezone, req.target_timezone⟩

/-- The HTTP outcome of POST /convert-time: 200 with the response body,
400 from the HTTPException the handler raises, or 422 from FastAPI when
the pydantic request model rejects the body (FastAPI answers a
RequestValidationError with status 422 and a structured list of field
errors, not with the handler's detail string). -/
inductive PostResult where
  | ok (resp : ConvResponse)
  | clientError (detail : String)
  | validationError (msgs : List String)
deriving DecidableEq, Repr

/-- HTTP status code of a POST /convert-time outcome. -/
def postStatus : PostResult → Nat
  | .ok _ => 200
  | .clientError _ => 400
  | .validationError _ => 422

/-- POST /convert-time end to end: FastAPI validates the request model
first and answers 422 itself on failure; only a validated request
reaches convert_time, whose exceptions become 400 with the detail
prefix of main.py line 115. -/
def post_convert_time (p : Pytz) (req : ConvRequest) : PostResult :=
  match requestValidationErrors p req with
  | [] =>
    match convert_time p req with
    | .ok r => .ok r
    | .error e => .clientError ("Invalid input or time zone error: " ++ e)
  | errs => .validationError errs

/-- Response body of GET / (health_check, main.py lines 60-66). -/
structure HealthResponse where
  message : String
deriving DecidableEq, Repr

/-- GET /: always 200 with the constant payload. -/
def health_check : Nat × HealthResponse := (200, ⟨"Healthy"⟩)

/-- GET /timezones (list_timezones, main.py lines 69-77): always 200
with pytz.all_timezones, unfiltered, in database order. -/
def list_timezones (p : Pytz) : Nat × List String := (200, p.all_timezones)

/-- Whether a zone finds at least one interpretation of a naive local
time: false exactly when the time falls in a DST spring-forward gap of
the zone (a nonexistent local time). -/
def nonGap (z : Zone) (t : NaiveDT) : Bool :=
  match z with
  | .static _ => true
  | .dst first trs => !(candidatesOf first trs t).isEmpty

/-- Whether re-localizing the wall clock that a UTC instant has in a
zone recovers exactly that instant, unambiguously: false exactly when
the instant renders inside a DST transition of the zone (fold or gap
wall times).  Trivial for a fixed-offset zone. -/
def cleanRelocalize (z : Zone) (u : NaiveDT) : Bool :=
  match z with
  | .static _ => true
  | .dst first trs => candidatesOf first trs (fromutc z u) = [infoAt first trs u]

/-- The fixed zero-padded pattern YYYY-MM-DD HH:MM as claim C2 states it
(a spec-side definition, written from the claim for comparison with the
validator): four digits, two-digit zero-padded month, day, hour and
minute at fixed positions, the literal separators, and in-range field
values. -/
def strictTimeFormat (s : String) : Bool :=
  match s.data with
  | [a, b, c, d, '-', e, f, '-', g, h, ' ', i, j, ':', k, l] =>
    match digitVal a, digitVal b, digitVal c, digitVal d, digitVal e, digitVal f,
        digitVal g, digitVal h, digitVal i, digitVal j, digitVal k, digitVal l with
    | some va, some vb, some vc, some vd, some ve, some vf,
      some vg, some vh, some vi, some vj, some vk, some vl =>
      decide (dtValid ⟨((va * 10 + vb) * 10 + vc) * 10 + vd,
        ve * 10 + vf, vg * 10 + vh, vi * 10 + vj, vk * 10 + vl⟩)
    | _, _, _, _, _, _, _, _, _, _, _, _ => false
  | _ => false

/-- The shape of the zero-padded output pattern YYYY-MM-DD HH:MM: sixteen
characters, digits at the digit positions, the literal separators, and
nothing after the minute (no offset or zone suffix). -/
def isPaddedForm (s : String) : Bool :=
  match s.data with
  | [a, b, c, d, '-', e, f, '-', g, h, ' ', i, j, ':', k, l] =>
    (digitVal a).isSome && (digitVal b).isSome && (digitVal c).isSome &&
    (digitVal d).isSome && (digitVal e).isSome && (digitVal f).isSome &&
    (digitVal g).isSome && (digitVal h).isSome && (digitVal i).isSome &&
    (digitVal j).isSome && (digitVal k).isSome && (digitVal l).isSome
  | _ => false

/-- C3: POST /convert-time with time "2023-07-15 12:00", source UTC and
target Asia/Kolkata succeeds and returns converted_time
"2023-07-15 17:30" (and echoes the rest of the response as the handler
builds it). -/
theorem convert_utc_to_kolkata_example :
    post_convert_time pytzModel ⟨"2023-07-15 12:00", "UTC", "Asia/Kolkata"⟩ =
      .ok ⟨"2023-07-15 12:00", "2023-07-15 17:30", "UTC", "Asia/Kolkata"⟩ := by
  decide

/-- C6: the timezone validator succeeds on exactly the members of
pytz.all_timezones, with no fuzzy matching and no case normalization:
membership is plain list membership, "Mars/Phobos" is rejected, "UTC" is
accepted while its lowercase variant "utc" is rejected. -/
theorem timezone_validator_exact_membership :
    (∀ (all_tz : List String) (v : String),
        validate_timezone all_tz v = true ↔ v ∈ all_tz) ∧
    validate_timezone pytzModel.all_timezones ("Mars/Phobos") = false ∧
    validate_timezone pytzModel.all_timezones ("UTC") = true ∧
    validate_timezone pytzModel.all_timezones ("utc") = false := by
  refine ⟨fun all_tz v => ?_, by decide, by decide, by decide⟩
  simp [validate_timezone]

/-- C7: GET /timezones always answers 200 with pytz.all_timezones
itself, unfiltered and in database order; on the bundled database the
list is non-empty and contains "UTC". -/
theorem list_timezones_full_list :
    (∀ p : Pytz, list_timezones p = (200, p.all_timezones)) ∧
    (list_timezones pytzModel).2 ≠ [] ∧
    "UTC" ∈ (list_timezones pytzModel).2 := by
  exact ⟨fun _ => rfl, by decide, by decide⟩

/-- C8: GET / always answers 200 with exactly the constant payload
whose message field is "Healthy"; the handler takes no input. -/
theorem health_check_constant :
    health_check = (200, ⟨"Healthy"⟩) := rfl

/-- C9: every operation is a pure function of the immutable timezone
database and the request, so two invocations with the same input give
identical outputs, including identical error outcomes. -/
theorem operations_deterministic :
    ∀ (p : Pytz) (req : ConvRequest),
      post_convert_time p req = post_convert_time p req ∧
      list_timezones p = list_timezones p ∧
      health_check = health_check :=
  fun _ _ => ⟨rfl, rfl, rfl⟩

/-- C1 counterexample: the malformed time string of the claim is
rejected by the pydantic request model, so FastAPI answers 422 with a
structured error list, not 400 with the handler's detail string. -/
theorem malformed_time_answered_422 :
    postStatus (post_convert_time pytzModel
      ⟨"15-07-2023 12:00", "UTC", "Asia/Kolkata"⟩) = 422 ∧ (422 : Nat) ≠ 400 := by
  decide

/-- C2 counterexample: strptime accepts a month written without the
zero padding, so the validator accepts "2023-7-15 12:00" although the
string deviates from the fixed zero-padded pattern of the claim. -/
theorem unpadded_time_accepted :
    validate_time_format ("2023-7-15 12:00") = true ∧
    strictTimeFormat ("2023-7-15 12:00") = false := by
  decide

/-- C4 counterexample: converting the nonexistent local time
2023-03-12 02:30 from America/New_York to America/New_York itself
succeeds but returns converted_time 03:30, not the original 02:30: the
claim fails on local times inside a DST spring-forward gap. -/
theorem same_zone_gap_changes_time :
    post_convert_time pytzModel
        ⟨"2023-03-12 02:30", "America/New_York", "America/New_York"⟩ =
      .ok ⟨"2023-03-12 02:30", "2023-03-12 03:30",
        "America/New_York", "America/New_York"⟩ ∧
    "2023-03-12 03:30" ≠ "2023-03-12 02:30" := by
  decide

theorem digitVal_digitChar (v : Nat) (h : v ≤ 9) : digitVal (digitChar v) = some v := by
  interval_cases v <;> rfl

theorem digitVal_digitChar_mod (n : Nat) : digitVal (digitChar (n % 10)) = some (n % 10) :=
  digitVal_digitChar _ (by omega)

theorem digitVal_digitChar_isSome (n : Nat) : (digitVal (digitChar n)).isSome = true := by
  unfold digitChar
  split <;> rfl

theorem isSpaceCh_digitChar (n : Nat) : isSpaceCh (digitChar n) = false := by
  unfold digitChar
  split <;> rfl

theorem readDigit_pad (n : Nat) (rest : List Char) :
    readDigit (digitChar (n % 10) :: rest) = some (n % 10, rest) := by
  simp [readDigit, digitVal_digitChar_mod]

theorem expectChar_cons_self (c : Char) (rest : List Char) :
    expectChar c (c :: rest) = some rest := by
  simp [expectChar]

theorem expectSpaces_space (rest : List Char) :
    expectSpaces (' ' :: rest) = some (rest.dropWhile isSpaceCh) := by
  simp [expectSpaces, isSpaceCh]

theorem dropWhile_pad2 (n : Nat) (cs : List Char) :
    List.dropWhile isSpaceCh (pad2 n ++ cs) = pad2 n ++ cs := by
  simp [pad2, List.dropWhile_cons, isSpaceCh_digitChar]

theorem matchMonth_pad2 (m : Nat) (h1 : 1 ≤ m) (h2 : m ≤ 12) (cs : List Char) :
    matchMonth (pad2 m ++ cs) = some (m, cs) := by
  simp only [pad2, List.cons_append, List.nil_append, matchMonth,
    digitVal_digitChar_mod (m / 10), digitVal_digitChar_mod m]
  rcases Nat.lt_or_ge m 10 with h | h
  · rw [if_neg (by omega), if_pos (by omega)]
    have e : m % 10 = m := by omega
    rw [e]
  · rw [if_pos (by omega)]
    have e : 10 + m % 10 = m := by omega
    rw [e]

theorem matchDay_pad2 (d : Nat) (h1 : 1 ≤ d) (h2 : d ≤ 31) (cs : List Char) :
    matchDay (pad2 d ++ cs) = some (d, cs) := by
  simp only [pad2, List.cons_append, List.nil_append, matchDay,
    digitVal_digitChar_mod (d / 10), digitVal_digitChar_mod d]
  rcases Nat.lt_or_ge d 10 with h | h
  · rw [if_neg (by omega), if_neg (by omega), if_pos (by omega)]
    have e : d % 10 = d := by omega
    rw [e]
  · rcases Nat.lt_or_ge d 30 with h3 | h3
    · rw [if_neg (by omega), if_pos (by omega)]
      have e : 10 * (d / 10 % 10) + d % 10 = d := by omega
      rw [e]
    · rw [if_pos (by omega)]
      have e : 30 + d % 10 = d := by omega
      rw [e]

theorem matchHour_pad2 (hr : Nat) (h2 : hr ≤ 23) (cs : List Char) :
    matchHour (pad2 hr ++ cs) = some (hr, cs) := by
  simp only [pad2, List.cons_append, List.nil_append, matchHour,
    digitVal_digitChar_mod (hr / 10), digitVal_digitChar_mod hr]
  rcases Nat.lt_or_ge hr 20 with h | h
  · rw [if_neg (by omega), if_pos (by omega)]
    have e : 10 * (hr / 10 % 10) + hr % 10 = hr := by omega
    rw [e]
  · rw [if_pos (by omega)]
    have e : 20 + hr % 10 = hr := by omega
    rw [e]

theorem matchMinute_pad2 (n : Nat) (h2 : n ≤ 59) (cs : List Char) :
    matchMinute (pad2 n ++ cs) = some (n, cs) := by
  simp only [pad2, List.cons_append, List.nil_append, matchMinute,
    digitVal_digitChar_mod (n / 10), digitVal_digitChar_mod n]
  rw [if_pos (by omega)]
  have e : 10 * (n / 10 % 10) + n % 10 = n := by omega
  rw [e]

theorem daysInMonth_le_31 (y m : Nat) : daysInMonth y m ≤ 31 := by
  unfold daysInMonth
  split <;> first | omega | (split <;> omega)

theorem one_le_daysInMonth (y m : Nat) : 1 ≤ daysInMonth y m := by
  unfold daysInMonth
  split <;> first | omega | (split <;> omega)

/-- The zero-padded rendering of a valid datetime is accepted by
strptime and reproduces the value. -/
theorem parse_paddedRender (t : NaiveDT) (hv : dtValid t) :
    parseTimeS (paddedRender t) = some t := by
  obtain ⟨hy1, hy2, hm1, hm2, hd1, hd2, hh, hmi⟩ := hv
  have hd31 : t.d ≤ 31 := le_trans hd2 (daysInMonth_le_31 t.y t.m)
  have hyrec : ((t.y / 1000 % 10 * 10 + t.y / 100 % 10) * 10 + t.y / 10 % 10) * 10 + t.y % 10 = t.y := by
    omega
  have hvalid : dtValid ⟨t.y, t.m, t.d, t.h, t.mi⟩ := ⟨hy1, hy2, hm1, hm2, hd1, hd2, hh, hmi⟩
  show parseTimeChars (paddedRender t).data = some t
  simp only [paddedRender, parseTimeChars, pad4, List.cons_append, List.nil_append,
    readDigit_pad, Option.bind_eq_bind, Option.some_bind, expectChar_cons_self,
    expectSpaces_space, dropWhile_pad2,
    matchMonth_pad2 t.m hm1 hm2, matchDay_pad2 t.d hd1 hd31,
    matchHour_pad2 t.h hh, hyrec]
  rw [show pad2 t.mi = pad2 t.mi ++ [] from (List.append_nil _).symm,
    matchMinute_pad2 t.mi hmi]
  simp [hvalid]

/-- For four-digit years the platform strftime output coincides with
the zero-padded pattern. -/
theorem formatDT_eq_padded (t : NaiveDT) (h : 1000 ≤ t.y) : formatDT t = paddedRender t := by
  have h1 : ¬ t.y < 10 := by omega
  have h2 : ¬ t.y < 100 := by omega
  have h3 : ¬ t.y < 1000 := by omega
  simp only [formatDT, paddedRender, yearChars, if_neg h1, if_neg h2, if_neg h3]

/-- strftime output parses back to the same timestamp whenever the year
has four digits. -/
theorem parse_formatDT (t : NaiveDT) (hv : dtValid t) (hy : 1000 ≤ t.y) :
    parseTimeS (formatDT t) = some t := by
  rw [formatDT_eq_padded t hy]
  exact parse_paddedRender t hv

theorem parseTimeChars_fail2 (c1 c2 : Char) (rest : List Char) (v1 : Nat)
    (h1 : digitVal c1 = some v1) (h : digitVal c2 = none) :
    parseTimeChars (c1 :: c2 :: rest) = none := by
  simp only [parseTimeChars, readDigit, h1, h, Option.map_none', Option.map_some',
    Option.bind_eq_bind, Option.none_bind, Option.some_bind]

theorem parseTimeChars_fail3 (c1 c2 c3 : Char) (rest : List Char) (v1 v2 : Nat)
    (h1 : digitVal c1 = some v1) (h2 : digitVal c2 = some v2) (h : digitVal c3 = none) :
    parseTimeChars (c1 :: c2 :: c3 :: rest) = none := by
  simp only [parseTimeChars, readDigit, h1, h2, h, Option.map_none', Option.map_some',
    Option.bind_eq_bind, Option.none_bind, Option.some_bind]

theorem parseTimeChars_fail4 (c1 c2 c3 c4 : Char) (rest : List Char) (v1 v2 v3 : Nat)
    (h1 : digitVal c1 = some v1) (h2 : digitVal c2 = some v2) (h3 : digitVal c3 = some v3)
    (h : digitVal c4 = none) : parseTimeChars (c1 :: c2 :: c3 :: c4 :: rest) = none := by
  simp only [parseTimeChars, readDigit, h1, h2, h3, h, Option.map_none', Option.map_some',
    Option.bind_eq_bind, Option.none_bind, Option.some_bind]

/-- For years below 1000 the platform strftime renders the year with
fewer than four digits, and strptime then rejects the rendered string:
the %Y regex demands exactly four digits and meets the '-' separator
too early. -/
theorem parse_formatDT_unpadded (t : NaiveDT) (hy : t.y < 1000) :
    parseTimeS (formatDT t) = none := by
  show parseTimeChars (formatDT t).data = none
  rcases Nat.lt_or_ge t.y 10 with h1 | h1
  · simp only [formatDT, yearChars, if_pos h1, List.cons_append, List.nil_append]
    exact parseTimeChars_fail2 _ _ _ t.y (digitVal_digitChar t.y (by omega)) rfl
  · have hn1 : ¬ t.y < 10 := by omega
    rcases Nat.lt_or_ge t.y 100 with h2 | h2
    · simp only [formatDT, yearChars, if_neg hn1, if_pos h2, List.cons_append,
        List.nil_append]
      exact parseTimeChars_fail3 _ _ _ _ (t.y / 10) (t.y % 10)
        (digitVal_digitChar (t.y / 10) (by omega)) (digitVal_digitChar_mod t.y) rfl
    · have hn2 : ¬ t.y < 100 := by omega
      simp only [formatDT, yearChars, if_neg hn1, if_neg hn2, if_pos hy,
        List.cons_append, List.nil_append]
      exact parseTimeChars_fail4 _ _ _ _ _ (t.y / 100) (t.y / 10 % 10) (t.y % 10)
        (digitVal_digitChar (t.y / 100) (by omega)) (digitVal_digitChar_mod (t.y / 10))
        (digitVal_digitChar_mod t.y) rfl

/-- Whatever strptime accepts satisfies the datetime constructor's field
ranges. -/
theorem parse_dtValid (cs : List Char) (t : NaiveDT) (h : parseTimeChars cs = some t) :
    dtValid t := by
  unfold parseTimeChars at h
  simp only [Option.bind_eq_bind, Option.bind_eq_some] at h
  obtain ⟨⟨a, cs1⟩, -, ⟨b, cs2⟩, -, ⟨c, cs3⟩, -, ⟨d, cs4⟩, -, cs5, -, ⟨mo, cs6⟩, -,
    cs7, -, ⟨dy, cs8⟩, -, cs9, -, ⟨hr, cs10⟩, -, cs11, -, ⟨mn, cs12⟩, -, h⟩ := h
  cases cs12 with
  | nil =>
    simp only at h
    split_ifs at h with hv
    · cases h
      exact hv
  | cons x xs => simp at h

theorem parseTimeS_dtValid (s : String) (t : NaiveDT) (h : parseTimeS s = some t) :
    dtValid t :=
  parse_dtValid s.data t h

theorem nextDay_prevDay (t : NaiveDT) (a b : Nat) (h : structValid t) (hy : 1 ≤ t.y) :
    nextDay ⟨(prevDay t).y, (prevDay t).m, (prevDay t).d, a, b⟩ = ⟨t.y, t.m, t.d, a, b⟩ := by
  obtain ⟨ty, tm, td, th, tmi⟩ := t
  obtain ⟨hm1, hm2, hd1, hd2, hh, hmi⟩ := h
  have e31 : daysInMonth (ty - 1) 12 = 31 := rfl
  simp only [prevDay, nextDay]
  split_ifs <;> simp_all [NaiveDT.mk.injEq] <;> omega

theorem prevDay_nextDay (t : NaiveDT) (a b : Nat) (h : structValid t) :
    prevDay ⟨(nextDay t).y, (nextDay t).m, (nextDay t).d, a, b⟩ = ⟨t.y, t.m, t.d, a, b⟩ := by
  obtain ⟨ty, tm, td, th, tmi⟩ := t
  obtain ⟨hm1, hm2, hd1, hd2, hh, hmi⟩ := h
  have e31 : daysInMonth ty 12 = 31 := rfl
  have h31 := daysInMonth_le_31 ty tm
  simp only [nextDay, prevDay]
  split_ifs <;> simp_all [NaiveDT.mk.injEq] <;>
    first
    | omega
    | (have etm : tm = 12 := by omega
       subst etm
       omega)

theorem structValid_prevDay (t : NaiveDT) (h : structValid t) : structValid (prevDay t) := by
  obtain ⟨ty, tm, td, th, tmi⟩ := t
  obtain ⟨hm1, hm2, hd1, hd2, hh, hmi⟩ := h
  have e31 : daysInMonth (ty - 1) 12 = 31 := rfl
  have hp := one_le_daysInMonth ty (tm - 1)
  simp only [prevDay, structValid]
  split_ifs <;> simp_all <;> omega

theorem structValid_nextDay (t : NaiveDT) (h : structValid t) : structValid (nextDay t) := by
  obtain ⟨ty, tm, td, th, tmi⟩ := t
  obtain ⟨hm1, hm2, hd1, hd2, hh, hmi⟩ := h
  have hp : 1 ≤ daysInMonth (ty + 1) 1 := one_le_daysInMonth _ _
  have hq : 1 ≤ daysInMonth ty (tm + 1) := one_le_daysInMonth _ _
  simp only [nextDay, structValid]
  split_ifs <;> simp_all <;> omega

theorem structValid_addMin (t : NaiveDT) (k : Int) (h : structValid t)
    (hk1 : -1440 ≤ k) (hk2 : k ≤ 1440) : structValid (addMin t k) := by
  have hp := structValid_prevDay t h
  have hn := structValid_nextDay t h
  obtain ⟨hm1, hm2, hd1, hd2, hh, hmi⟩ := h
  obtain ⟨p1, p2, p3, p4, p5, p6⟩ := hp
  obtain ⟨n1, n2, n3, n4, n5, n6⟩ := hn
  simp only [addMin]
  split_ifs with h1 h2
  · exact ⟨p1, p2, p3, p4, by dsimp only; omega, by dsimp only; omega⟩
  · exact ⟨hm1, hm2, hd1, hd2, by dsimp only; omega, by dsimp only; omega⟩
  · exact ⟨n1, n2, n3, n4, by dsimp only; omega, by dsimp only; omega⟩

theorem one_le_addMin_y (t : NaiveDT) (k : Int) (h : structValid t) (hy : 1 ≤ t.y)
    (hne : ¬(t.y = 1 ∧ t.m = 1 ∧ t.d = 1)) : 1 ≤ (addMin t k).y := by
  obtain ⟨ty, tm, td, th, tmi⟩ := t
  obtain ⟨hm1, hm2, hd1, hd2, hh, hmi⟩ := h
  simp only [addMin, prevDay, nextDay]
  split_ifs <;> (simp_all; try omega)

/-- Shifting a timestamp by at most a day and back returns the original
timestamp, for any valid timestamp of a positive year. -/
theorem addMin_cancel (t : NaiveDT) (k : Int) (h : structValid t) (hy : 1 ≤ t.y)
    (hk1 : -1440 ≤ k) (hk2 : k ≤ 1440) :
    addMin (addMin t k) (-k) = t := by
  obtain ⟨ty, tm, td, th, tmi⟩ := t
  have hh : th ≤ 23 := h.2.2.2.2.1
  have hmi : tmi ≤ 59 := h.2.2.2.2.2
  by_cases h1 : ((th * 60 + tmi : Nat) : Int) + k < 0
  · have e1 : addMin ⟨ty, tm, td, th, tmi⟩ k =
        ⟨(prevDay ⟨ty, tm, td, th, tmi⟩).y, (prevDay ⟨ty, tm, td, th, tmi⟩).m,
          (prevDay ⟨ty, tm, td, th, tmi⟩).d,
          (((th * 60 + tmi : Nat) : Int) + k + 1440).toNat / 60,
          (((th * 60 + tmi : Nat) : Int) + k + 1440).toNat % 60⟩ := by
      simp only [addMin]
      try dsimp only
      rw [if_pos h1]
    rw [e1]
    simp only [addMin]
    try dsimp only
    rw [if_neg (by omega), if_neg (by omega)]
    rw [nextDay_prevDay ⟨ty, tm, td, th, tmi⟩ _ _ h hy]
    simp only [NaiveDT.mk.injEq, true_and]
    omega
  · by_cases h2 : ((th * 60 + tmi : Nat) : Int) + k < 1440
    · have e1 : addMin ⟨ty, tm, td, th, tmi⟩ k =
          ⟨ty, tm, td, (((th * 60 + tmi : Nat) : Int) + k).toNat / 60,
            (((th * 60 + tmi : Nat) : Int) + k).toNat % 60⟩ := by
        simp only [addMin]
        try dsimp only
        rw [if_neg h1, if_pos h2]
      rw [e1]
      simp only [addMin]
      try dsimp only
      rw [if_neg (by omega), if_pos (by omega)]
      simp only [NaiveDT.mk.injEq, true_and]
      omega
    · have e1 : addMin ⟨ty, tm, td, th, tmi⟩ k =
          ⟨(nextDay ⟨ty, tm, td, th, tmi⟩).y, (nextDay ⟨ty, tm, td, th, tmi⟩).m,
            (nextDay ⟨ty, tm, td, th, tmi⟩).d,
            (((th * 60 + tmi : Nat) : Int) + k - 1440).toNat / 60,
            (((th * 60 + tmi : Nat) : Int) + k - 1440).toNat % 60⟩ := by
        simp only [addMin]
        try dsimp only
        rw [if_neg h1, if_neg h2]
      rw [e1]
      simp only [addMin]
      try dsimp only
      rw [if_pos (by omega)]
      rw [prevDay_nextDay ⟨ty, tm, td, th, tmi⟩ _ _ h]
      simp only [NaiveDT.mk.injEq, true_and]
      omega

theorem exceptMap_eq_ok {α β ε : Type} (f : α → β) (e : Except ε α) (b : β)
    (h : Except.map f e = .ok b) : ∃ a, e = .ok a ∧ f a = b := by
  cases e with
  | error x => simp [Except.map] at h
  | ok a =>
    simp only [Except.map, Except.ok.injEq] at h
    exact ⟨a, rfl, h⟩

theorem minOffInfo_mem (i : TzInfo) (l : List TzInfo) : minOffInfo i l ∈ i :: l := by
  induction l generalizing i with
  | nil => simp [minOffInfo]
  | cons j rest ih =>
    simp only [minOffInfo]
    split_ifs
    · have := ih j
      simp only [List.mem_cons] at this ⊢
      tauto
    · have := ih i
      simp only [List.mem_cons] at this ⊢
      tauto

theorem infoAt_off_bound (first : TzInfo) (trs : List (NaiveDT × TzInfo)) (w : NaiveDT)
    (h1 : -1439 ≤ first.off ∧ first.off ≤ 1439)
    (h2 : ∀ q ∈ trs, -1439 ≤ (q : NaiveDT × TzInfo).2.off ∧ q.2.off ≤ 1439) :
    -1439 ≤ (infoAt first trs w).off ∧ (infoAt first trs w).off ≤ 1439 := by
  induction trs generalizing first with
  | nil => exact h1
  | cons q rest ih =>
    obtain ⟨tt, ti⟩ := q
    simp only [infoAt]
    split_ifs
    · exact ih ti (h2 (tt, ti) (List.mem_cons_self _ _))
        fun q hq => h2 q (List.mem_cons_of_mem _ hq)
    · exact h1

theorem zoneWF_dst (f : TzInfo) (trs : List (NaiveDT × TzInfo))
    (h : zoneWF (.dst f trs) = true) :
    (-1439 ≤ f.off ∧ f.off ≤ 1439) ∧
      ∀ q ∈ trs, -1439 ≤ (q : NaiveDT × TzInfo).2.off ∧ q.2.off ≤ 1439 := by
  simp only [zoneWF, Bool.and_eq_true, decide_eq_true_eq, List.all_eq_true] at h
  exact ⟨h.1, fun q hq => by have := h.2 q hq; simpa using this⟩

/-- Every interpretation a probe accepts carries the transition info in
force at its own UTC instant, and reading the wall clock of that instant
back in the zone reproduces the input time. -/
theorem probeInfo_spec (first : TzInfo) (trs : List (NaiveDT × TzInfo)) (t probe : NaiveDT)
    (i : TzInfo)
    (hb1 : -1439 ≤ first.off ∧ first.off ≤ 1439)
    (hb2 : ∀ q ∈ trs, -1439 ≤ (q : NaiveDT × TzInfo).2.off ∧ q.2.off ≤ 1439)
    (hsv : structValid t) (hy : 1 ≤ t.y)
    (hne : ¬(t.y = 1 ∧ t.m = 1 ∧ t.d = 1))
    (hpi : probeInfo first trs t probe = some i) :
    infoAt first trs (addMin t (-i.off)) = i ∧ addMin (addMin t (-i.off)) i.off = t := by
  simp only [probeInfo] at hpi
  split_ifs at hpi with hc
  · simp only [Option.some.injEq] at hpi
    subst hpi
    have hbe := infoAt_off_bound first trs probe hb1 hb2
    have hsvU : structValid (addMin t (-(infoAt first trs probe).off)) :=
      structValid_addMin t _ hsv (by omega) (by omega)
    have hyU : 1 ≤ (addMin t (-(infoAt first trs probe).off)).y :=
      one_le_addMin_y t _ hsv hy hne
    have hbi := infoAt_off_bound first trs (addMin t (-(infoAt first trs probe).off)) hb1 hb2
    have hUeq : addMin t (-(infoAt first trs probe).off) =
        addMin t (-(infoAt first trs (addMin t (-(infoAt first trs probe).off))).off) := by
      conv_lhs => rw [← addMin_cancel (addMin t (-(infoAt first trs probe).off))
        ((infoAt first trs (addMin t (-(infoAt first trs probe).off))).off)
        hsvU hyU (by omega) (by omega)]
      rw [hc]
    constructor
    · rw [← hUeq]
    · rw [← hUeq]
      exact hc

theorem candidatesOf_mem (first : TzInfo) (trs : List (NaiveDT × TzInfo)) (t : NaiveDT)
    (i : TzInfo) (h : i ∈ candidatesOf first trs t) :
    probeInfo first trs t (prevDay t) = some i ∨
      probeInfo first trs t (nextDay t) = some i := by
  unfold candidatesOf at h
  rcases h1 : probeInfo first trs t (prevDay t) with _ | i1 <;>
    rcases h2 : probeInfo first trs t (nextDay t) with _ | i2 <;>
    rw [h1, h2] at h
  · simp at h
  · dsimp only at h
    simp only [List.mem_singleton] at h
    subst h
    exact Or.inr rfl
  · dsimp only at h
    simp only [List.mem_singleton] at h
    subst h
    exact Or.inl rfl
  · dsimp only at h
    split_ifs at h
    · simp only [List.mem_singleton] at h
      subst h
      exact Or.inl rfl
    · simp only [List.mem_cons, List.mem_singleton, List.not_mem_nil, or_false] at h
      rcases h with h | h
      · subst h
        exact Or.inl rfl
      · subst h
        exact Or.inr rfl

theorem localizeFuel_wall (first : TzInfo) (trs : List (NaiveDT × TzInfo)) :
    ∀ (n : Nat) (t w : NaiveDT) (i : TzInfo),
      structValid t → 1 ≤ t.y → localizeFuel first trs n t = .ok (w, i) → w = t := by
  intro n
  induction n with
  | zero =>
    intro t w i _ _ h
    exact Except.noConfusion h
  | succ n ih =>
    intro t w i hsv hy h
    unfold localizeFuel at h
    split_ifs at h with hg
    rcases hc : candidatesOf first trs t with _ | ⟨i1, _ | ⟨i2, rest⟩⟩ <;> rw [hc] at h
    · obtain ⟨⟨w2, j2⟩, hrec, heq⟩ := exceptMap_eq_ok _ _ _ h
      have hne : ¬(t.y = 1 ∧ t.m = 1 ∧ t.d = 1) := fun hh => hg (Or.inl hh)
      have hsv2 : structValid (addMin t (-360)) :=
        structValid_addMin t (-360) hsv (by norm_num) (by norm_num)
      have hy2 : 1 ≤ (addMin t (-360)).y := one_le_addMin_y t (-360) hsv hy hne
      have hww := ih (addMin t (-360)) w2 j2 hsv2 hy2 hrec
      subst hww
      simp only [Prod.mk.injEq] at heq
      rw [← heq.1]
      have hcan := addMin_cancel t (-360) hsv hy (by norm_num) (by norm_num)
      simpa using hcan
    · simp only [Except.ok.injEq, Prod.mk.injEq] at h
      exact h.1.symm
    · rcases hf : (i1 :: i2 :: rest).filter (fun j => j.isDst = false) with _ | ⟨j, _ | js⟩ <;>
        simp only [hf, Except.ok.injEq, Prod.mk.injEq] at h <;> exact h.1.symm

theorem localizeFuel_ok_mem (first : TzInfo) (trs : List (NaiveDT × TzInfo)) (n : Nat)
    (t w : NaiveDT) (i : TzInfo)
    (h : localizeFuel first trs (n + 1) t = .ok (w, i))
    (hne0 : candidatesOf first trs t ≠ []) :
    ¬((t.y = 1 ∧ t.m = 1 ∧ t.d = 1) ∨ (t.y = 9999 ∧ t.m = 12 ∧ t.d = 31)) ∧
      i ∈ candidatesOf first trs t ∧ w = t := by
  unfold localizeFuel at h
  split_ifs at h with hg
  refine ⟨hg, ?_⟩
  rcases hc : candidatesOf first trs t with _ | ⟨i1, _ | ⟨i2, rest⟩⟩ <;> rw [hc] at h
  · exact absurd hc hne0
  · simp only [Except.ok.injEq, Prod.mk.injEq] at h
    rw [← h.2]
    exact ⟨List.mem_singleton.mpr rfl, h.1.symm⟩
  · rcases hf : (i1 :: i2 :: rest).filter (fun j => j.isDst = false) with _ | ⟨j, _ | ⟨j2, js2⟩⟩ <;>
      simp only [hf, Except.ok.injEq, Prod.mk.injEq] at h
    · rw [← h.2]
      exact ⟨minOffInfo_mem i1 (i2 :: rest), h.1.symm⟩
    · rw [← h.2]
      have hjf : j ∈ (i1 :: i2 :: rest).filter (fun j => j.isDst = false) := by
        rw [hf]
        exact List.mem_singleton.mpr rfl
      exact ⟨List.mem_of_mem_filter hjf, h.1.symm⟩
    · rw [← h.2]
      have hjf : minOffInfo j (j2 :: js2) ∈
          (i1 :: i2 :: rest).filter (fun j => j.isDst = false) := by
        rw [hf]
        exact minOffInfo_mem j (j2 :: js2)
      exact ⟨List.mem_of_mem_filter hjf, h.1.symm⟩

/-- pytz localize never changes the wall clock it is given, and, outside
the spring-forward gaps, converting the chosen instant back to the same
zone's wall clock reproduces the input: the chosen info is the one in
force at the chosen instant. -/
theorem localize_roundtrip_wall (z : Zone) (t w : NaiveDT) (i : TzInfo)
    (hwf : zoneWF z = true) (hsv : structValid t) (hy : 1 ≤ t.y)
    (hng : nonGap z t = true) (hloc : localize z t = .ok (w, i)) :
    w = t ∧ fromutc z (addMin w (-i.off)) = t := by
  cases z with
  | static off =>
    simp only [localize, Except.ok.injEq, Prod.mk.injEq] at hloc
    obtain ⟨e1, e2⟩ := hloc
    subst e1
    subst e2
    refine ⟨rfl, ?_⟩
    simp only [fromutc]
    have hb : -1439 ≤ off ∧ off ≤ 1439 := by
      simpa [zoneWF] using hwf
    have hcan := addMin_cancel t (-off) hsv hy (by omega) (by omega)
    simpa using hcan
  | dst f trs =>
    simp only [localize] at hloc
    have hne0 : candidatesOf f trs t ≠ [] := by
      simp only [nonGap, Bool.not_eq_true'] at hng
      exact fun hh => by simp [hh] at hng
    have h8 : (8 : Nat) = 7 + 1 := rfl
    rw [h8] at hloc
    obtain ⟨hg, hmemi, hw⟩ := localizeFuel_ok_mem f trs 7 t w i hloc hne0
    subst w
    refine ⟨rfl, ?_⟩
    have hne : ¬(t.y = 1 ∧ t.m = 1 ∧ t.d = 1) := fun hh => hg (Or.inl hh)
    obtain ⟨hb1, hb2⟩ := zoneWF_dst f trs hwf
    have hp := candidatesOf_mem f trs t i hmemi
    have hspec : infoAt f trs (addMin t (-i.off)) = i ∧
        addMin (addMin t (-i.off)) i.off = t := by
      rcases hp with hp | hp
      · exact probeInfo_spec f trs t (prevDay t) i hb1 hb2 hsv hy hne hp
      · exact probeInfo_spec f trs t (nextDay t) i hb1 hb2 hsv hy hne hp
    simp only [fromutc]
    rw [hspec.1]
    exact hspec.2

theorem post_convert_ok (p : Pytz) (req : ConvRequest) (r : ConvResponse)
    (h : post_convert_time p req = .ok r) :
    requestValidationErrors p req = [] ∧ convert_time p req = .ok r := by
  unfold post_convert_time at h
  rcases he : requestValidationErrors p req with _ | ⟨e, es⟩ <;> rw [he] at h
  · refine ⟨rfl, ?_⟩
    rcases hc : convert_time p req with e | r2 <;> rw [hc] at h
    · exact PostResult.noConfusion h
    · simp only [PostResult.ok.injEq] at h
      rw [h]
  · exact PostResult.noConfusion h

/-- Inversion of a successful run of the handler: the parsed time, the
two zone objects, the localized aware time, the range checks of
astimezone, and the exact shape of the response. -/
theorem convert_time_ok (p : Pytz) (req : ConvRequest) (r : ConvResponse)
    (h : convert_time p req = .ok r) :
    ∃ t src tgt w i,
      parseTimeS req.time = some t ∧
      lookupZone p.zones req.source_timezone = some src ∧
      lookupZone p.zones req.target_timezone = some tgt ∧
      localize src t = .ok (w, i) ∧
      1 ≤ (addMin w (-i.off)).y ∧ (addMin w (-i.off)).y ≤ 9999 ∧
      1 ≤ (fromutc tgt (addMin w (-i.off))).y ∧
      (fromutc tgt (addMin w (-i.off))).y ≤ 9999 ∧
      r = ⟨formatDT w, formatDT (fromutc tgt (addMin w (-i.off))),
        req.source_timezone, req.target_timezone⟩ := by
  unfold convert_time at h
  rcases hp : parseTimeS req.time with _ | t <;> rw [hp] at h
  · exact Except.noConfusion h
  dsimp only at h
  rcases hs : lookupZone p.zones req.source_timezone with _ | src <;> rw [hs] at h
  · exact Except.noConfusion h
  dsimp only at h
  rcases ht : lookupZone p.zones req.target_timezone with _ | tgt <;> rw [ht] at h
  · exact Except.noConfusion h
  dsimp only at h
  rcases hl : localize src t with e | wi <;> rw [hl] at h
  · exact Except.noConfusion h
  obtain ⟨w, i⟩ := wi
  dsimp only at h
  split_ifs at h with g1 g2
  simp only [Except.ok.injEq] at h
  exact ⟨t, src, tgt, w, i, rfl, rfl, rfl, hl,
    by omega, by omega, by omega, by omega, h.symm⟩

theorem probeInfo_shape (first : TzInfo) (trs : List (NaiveDT × TzInfo)) (t probe : NaiveDT)
    (i : TzInfo) (h : probeInfo first trs t probe = some i) :
    ∃ u, infoAt first trs u = i := by
  simp only [probeInfo] at h
  split_ifs at h
  simp only [Option.some.injEq] at h
  exact ⟨_, h⟩

theorem candidate_off_bound (first : TzInfo) (trs : List (NaiveDT × TzInfo)) (t : NaiveDT)
    (i : TzInfo)
    (hb1 : -1439 ≤ first.off ∧ first.off ≤ 1439)
    (hb2 : ∀ q ∈ trs, -1439 ≤ (q : NaiveDT × TzInfo).2.off ∧ q.2.off ≤ 1439)
    (h : i ∈ candidatesOf first trs t) : -1439 ≤ i.off ∧ i.off ≤ 1439 := by
  rcases candidatesOf_mem first trs t i h with hp | hp <;>
    obtain ⟨u, hu⟩ := probeInfo_shape first trs t _ i hp <;>
    rw [← hu] <;>
    exact infoAt_off_bound first trs u hb1 hb2

/-- The offset of the info chosen by localize is a real zone offset,
bounded by a day, whenever the localized time is not in a gap. -/
theorem localize_off_bound_nonGap (z : Zone) (t w : NaiveDT) (i : TzInfo)
    (hwf : zoneWF z = true) (hng : nonGap z t = true)
    (hloc : localize z t = .ok (w, i)) : -1439 ≤ i.off ∧ i.off ≤ 1439 := by
  cases z with
  | static off =>
    simp only [localize, Except.ok.injEq, Prod.mk.injEq] at hloc
    obtain ⟨-, e2⟩ := hloc
    rw [← e2]
    simpa [zoneWF] using hwf
  | dst f trs =>
    simp only [localize] at hloc
    have hne0 : candidatesOf f trs t ≠ [] := by
      simp only [nonGap, Bool.not_eq_true'] at hng
      exact fun hh => by simp [hh] at hng
    have h8 : (8 : Nat) = 7 + 1 := rfl
    rw [h8] at hloc
    obtain ⟨-, hmemi, -⟩ := localizeFuel_ok_mem f trs 7 t w i hloc hne0
    obtain ⟨hb1, hb2⟩ := zoneWF_dst f trs hwf
    exact candidate_off_bound f trs t i hb1 hb2 hmemi

/-- C4 (amended): for every timezone Z and valid timestamp that denotes
an existent local time of Z (not inside a DST spring-forward gap),
whenever POST /convert-time from Z to Z succeeds it returns
converted_time equal to original_time; inside a gap the endpoint
succeeds but moves the clock past the gap, as the counterexample
records. -/
theorem same_zone_identity (p : Pytz) (zname s : String) (z : Zone) (t : NaiveDT)
    (r : ConvResponse)
    (hz : lookupZone p.zones zname = some z)
    (hwf : zoneWF z = true)
    (hp : parseTimeS s = some t)
    (hng : nonGap z t = true)
    (hok : post_convert_time p ⟨s, zname, zname⟩ = .ok r) :
    r.converted_time = r.original_time := by
  obtain ⟨-, hconv⟩ := post_convert_ok _ _ _ hok
  obtain ⟨t2, src, tgt, w, i, hp2, hs2, ht2, hl2, g1, g2, g3, g4, hr⟩ :=
    convert_time_ok _ _ _ hconv
  dsimp only at hp2 hs2 ht2 hr
  rw [hp] at hp2
  injection hp2 with e
  subst e
  rw [hz] at hs2 ht2
  injection hs2 with e1
  subst e1
  injection ht2 with e2
  subst e2
  obtain ⟨hy1, hy2, hsv⟩ := parseTimeS_dtValid s t hp
  obtain ⟨hw, hback⟩ := localize_roundtrip_wall z t w i hwf hsv hy1 hng hl2
  subst w
  rw [hr]
  dsimp only
  rw [hback]

/-- C4 amended, witnessed at a concrete non-gap instance: New York
standard time in January converted from America/New_York to itself. -/
theorem same_zone_identity_witness :
    (⟨"2023-01-15 08:00", "2023-01-15 08:00", "America/New_York",
        "America/New_York"⟩ : ConvResponse).converted_time =
      (⟨"2023-01-15 08:00", "2023-01-15 08:00", "America/New_York",
        "America/New_York"⟩ : ConvResponse).original_time :=
  same_zone_identity pytzModel ("America/New_York") ("2023-01-15 08:00") tzNewYork
    ⟨2023, 1, 15, 8, 0⟩
    ⟨"2023-01-15 08:00", "2023-01-15 08:00", "America/New_York", "America/New_York"⟩
    (by decide) (by decide) (by decide) (by decide) (by decide)

theorem structValid_fromutc (z : Zone) (u : NaiveDT) (hwf : zoneWF z = true)
    (hsv : structValid u) : structValid (fromutc z u) := by
  cases z with
  | static off =>
    have hb : -1439 ≤ off ∧ off ≤ 1439 := by simpa [zoneWF] using hwf
    exact structValid_addMin u off hsv (by omega) (by omega)
  | dst f trs =>
    obtain ⟨hb1, hb2⟩ := zoneWF_dst f trs hwf
    have hb := infoAt_off_bound f trs u hb1 hb2
    exact structValid_addMin u _ hsv (by omega) (by omega)

/-- C5: converting a valid timestamp from zone A to zone B and feeding
the result back from B to A returns the original timestamp, whenever
none of the instants involved sits inside a DST transition: the source
time exists in A (no spring-forward gap) and the intermediate wall clock
in B re-localizes unambiguously to the same instant (no fold or gap in
B).  Inside a DST transition the property is excluded by the claim
itself. -/
theorem round_trip (p : Pytz) (A B s0 : String) (zA zB : Zone) (t : NaiveDT)
    (i1 : TzInfo) (r1 r2 : ConvResponse)
    (hzA : lookupZone p.zones A = some zA) (hzB : lookupZone p.zones B = some zB)
    (hwA : zoneWF zA = true) (hwB : zoneWF zB = true)
    (hp : parseTimeS s0 = some t)
    (hng : nonGap zA t = true)
    (hloc : localize zA t = .ok (t, i1))
    (hclean : cleanRelocalize zB (addMin t (-i1.off)) = true)
    (hok1 : post_convert_time p ⟨s0, A, B⟩ = .ok r1)
    (hok2 : post_convert_time p ⟨r1.converted_time, B, A⟩ = .ok r2) :
    r2.converted_time = r1.original_time := by
  obtain ⟨-, hconv1⟩ := post_convert_ok _ _ _ hok1
  obtain ⟨t1, src1, tgt1, w1, j1, hp1, hs1, ht1, hl1, g11, g12, g13, g14, hr1⟩ :=
    convert_time_ok _ _ _ hconv1
  dsimp only at hp1 hs1 ht1 hr1
  rw [hp] at hp1
  injection hp1 with e
  subst e
  rw [hzA] at hs1
  injection hs1 with e
  subst e
  rw [hzB] at ht1
  injection ht1 with e
  subst e
  rw [hloc] at hl1
  simp only [Except.ok.injEq, Prod.mk.injEq] at hl1
  obtain ⟨ew, ei⟩ := hl1
  subst ew
  subst ei
  obtain ⟨hy1, hy9, hsv⟩ := parseTimeS_dtValid s0 t hp
  obtain ⟨-, hback⟩ := localize_roundtrip_wall zA t t i1 hwA hsv hy1 hng hloc
  have hbi1 := localize_off_bound_nonGap zA t t i1 hwA hng hloc
  have hsvU : structValid (addMin t (-i1.off)) :=
    structValid_addMin t _ hsv (by omega) (by omega)
  have hvS : dtValid (fromutc zB (addMin t (-i1.off))) :=
    ⟨g13, g14, structValid_fromutc zB _ hwB hsvU⟩
  obtain ⟨-, hconv2⟩ := post_convert_ok _ _ _ hok2
  obtain ⟨t2, src2, tgt2, w2, i2, hp21, hs21, ht21, hl21, g21, g22, g23, g24, hr2⟩ :=
    convert_time_ok _ _ _ hconv2
  dsimp only at hp21 hs21 ht21 hr2
  rw [hr1] at hp21
  dsimp only at hp21
  have h1000 : 1000 ≤ (fromutc zB (addMin t (-i1.off))).y := by
    rcases Nat.lt_or_ge (fromutc zB (addMin t (-i1.off))).y 1000 with hlt | hge
    · rw [parse_formatDT_unpadded _ hlt] at hp21
      exact Option.noConfusion hp21
    · exact hge
  rw [parse_formatDT _ hvS h1000] at hp21
  injection hp21 with e
  subst e
  rw [hzB] at hs21
  injection hs21 with e
  subst e
  rw [hzA] at ht21
  injection ht21 with e
  subst e
  have hkey : addMin w2 (-i2.off) = addMin t (-i1.off) := by
    cases zB with
    | static off =>
      have hb : -1439 ≤ off ∧ off ≤ 1439 := by simpa [zoneWF] using hwB
      simp only [localize, Except.ok.injEq, Prod.mk.injEq] at hl21
      obtain ⟨e1, e2⟩ := hl21
      rw [← e1, ← e2]
      simp only [fromutc]
      exact addMin_cancel (addMin t (-i1.off)) off hsvU g11 (by omega) (by omega)
    | dst f trs =>
      simp only [cleanRelocalize, decide_eq_true_eq] at hclean
      simp only [localize] at hl21
      have hne0 : candidatesOf f trs (fromutc (Zone.dst f trs) (addMin t (-i1.off))) ≠ [] := by
        rw [hclean]
        simp
      have h8 : (8 : Nat) = 7 + 1 := rfl
      rw [h8] at hl21
      obtain ⟨-, hmem2, hw2⟩ := localizeFuel_ok_mem f trs 7 _ w2 i2 hl21 hne0
      rw [hclean] at hmem2
      simp only [List.mem_singleton] at hmem2
      rw [hw2, hmem2]
      simp only [fromutc]
      obtain ⟨hb1, hb2⟩ := zoneWF_dst f trs hwB
      have hbIB := infoAt_off_bound f trs (addMin t (-i1.off)) hb1 hb2
      exact addMin_cancel (addMin t (-i1.off)) _ hsvU g11 (by omega) (by omega)
  rw [hr2, hr1]
  dsimp only
  rw [hkey, hback]

/-- C5 witnessed at a concrete instance: noon UTC to Asia/Kolkata and
back recovers the original timestamp. -/
theorem round_trip_witness :
    (⟨"2023-07-15 17:30", "2023-07-15 12:00", "Asia/Kolkata", "UTC"⟩ :
        ConvResponse).converted_time =
      (⟨"2023-07-15 12:00", "2023-07-15 17:30", "UTC", "Asia/Kolkata"⟩ :
        ConvResponse).original_time :=
  round_trip pytzModel ("UTC") ("Asia/Kolkata") ("2023-07-15 12:00") tzUTC tzKolkata
    ⟨2023, 7, 15, 12, 0⟩ ⟨0, false⟩
    ⟨"2023-07-15 12:00", "2023-07-15 17:30", "UTC", "Asia/Kolkata"⟩
    ⟨"2023-07-15 17:30", "2023-07-15 12:00", "Asia/Kolkata", "UTC"⟩
    (by decide) (by decide) (by decide) (by decide) (by decide)
    (by decide) (by rfl) (by decide) (by decide) (by decide)

/-- C1 (amended): a request that fails the pydantic model validation is
answered by the framework itself with HTTP 422 carrying the structured
field errors; only a request that passes validation reaches the handler,
and an exception there is answered with HTTP 400 and the body detail
"Invalid input or time zone error: " followed by the exception text. -/
theorem error_channels (p : Pytz) (req : ConvRequest) :
    (requestValidationErrors p req ≠ [] →
      post_convert_time p req = .validationError (requestValidationErrors p req) ∧
      postStatus (post_convert_time p req) = 422) ∧
    (∀ e, requestValidationErrors p req = [] → convert_time p req = .error e →
      post_convert_time p req = .clientError ("Invalid input or time zone error: " ++ e) ∧
      postStatus (post_convert_time p req) = 400) := by
  constructor
  · intro hne
    unfold post_convert_time
    rcases he : requestValidationErrors p req with _ | ⟨x, xs⟩
    · exact absurd he hne
    · exact ⟨rfl, rfl⟩
  · intro e hval hc
    unfold post_convert_time
    rw [hval, hc]
    exact ⟨rfl, rfl⟩

/-- C1 amended, witnessed: the malformed time string is answered 422
with the pydantic message, and a validated request whose conversion
overflows the datetime range is answered 400 with the wrapped message. -/
theorem error_channels_witness :
    (post_convert_time pytzModel ⟨"15-07-2023 12:00", "UTC", "Asia/Kolkata"⟩ =
        .validationError ["time must be in format 'YYYY-MM-DD HH:MM' (24hr)"] ∧
      postStatus (post_convert_time pytzModel
        ⟨"15-07-2023 12:00", "UTC", "Asia/Kolkata"⟩) = 422) ∧
    (post_convert_time pytzModel ⟨"0001-01-01 00:30", "America/New_York", "UTC"⟩ =
        .clientError ("Invalid input or time zone error: " ++ "date value out of range") ∧
      postStatus (post_convert_time pytzModel
        ⟨"0001-01-01 00:30", "America/New_York", "UTC"⟩) = 400) := by
  constructor
  · have h := (error_channels pytzModel ⟨"15-07-2023 12:00", "UTC", "Asia/Kolkata"⟩).1
      (by decide)
    have he : requestValidationErrors pytzModel ⟨"15-07-2023 12:00", "UTC", "Asia/Kolkata"⟩ =
        ["time must be in format 'YYYY-MM-DD HH:MM' (24hr)"] := by decide
    rw [he] at h
    exact h
  · exact (error_channels pytzModel ⟨"0001-01-01 00:30", "America/New_York", "UTC"⟩).2
      ("date value out of range") (by decide) (by rfl)

/-- C2 (amended): the time validator accepts the strptime language,
strictly larger than the fixed zero-padded pattern: every zero-padded
rendering of a valid timestamp is accepted, but so are strings with
one-digit month, day, hour or minute fields, a space-padded day such as
" 5" (the last alternative of the %d regex), and repeated whitespace
between date and time; wrong separators, 12-hour markers, out-of-range
fields, calendar-invalid dates and year 0000 are rejected. -/
theorem time_validator_lenient :
    (∀ t : NaiveDT, dtValid t → validate_time_format (paddedRender t) = true) ∧
    validate_time_format ("2023-7-15 12:00") = true ∧
    validate_time_format ("2023-07- 5 12:00") = true ∧
    validate_time_format ("2023-07-15  12:00") = true ∧
    validate_time_format ("2023/07/15 12:00") = false ∧
    validate_time_format ("2023-07-15 12:00 PM") = false ∧
    validate_time_format ("2023-13-01 10:00") = false ∧
    validate_time_format ("2023-02-30 10:00") = false ∧
    validate_time_format ("2023-07-15 24:00") = false ∧
    validate_time_format ("2023-07-15 12:60") = false ∧
    validate_time_format ("0000-01-01 00:00") = false := by
  refine ⟨fun t hv => ?_, by decide, by decide, by decide, by decide, by decide,
    by decide, by decide, by decide, by decide, by decide⟩
  unfold validate_time_format
  rw [parse_paddedRender t hv]
  rfl

/-- C2 amended, witnessed on a concrete valid timestamp. -/
theorem time_validator_lenient_witness :
    validate_time_format (paddedRender ⟨2023, 7, 15, 12, 0⟩) = true :=
  time_validator_lenient.1 ⟨2023, 7, 15, 12, 0⟩ (by decide)

theorem localize_wall (z : Zone) (t w : NaiveDT) (i : TzInfo)
    (hsv : structValid t) (hy : 1 ≤ t.y) (hloc : localize z t = .ok (w, i)) : w = t := by
  cases z with
  | static off =>
    simp only [localize, Except.ok.injEq, Prod.mk.injEq] at hloc
    exact hloc.1.symm
  | dst f trs => exact localizeFuel_wall f trs 8 t w i hsv hy hloc

theorem paddedRender_padded (t : NaiveDT) : isPaddedForm (paddedRender t) = true := by
  simp only [isPaddedForm, paddedRender, pad4, pad2, List.cons_append, List.nil_append]
  simp [digitVal_digitChar_isSome]

theorem formatDT_padded (t : NaiveDT) (h : 1000 ≤ t.y) : isPaddedForm (formatDT t) = true := by
  rw [formatDT_eq_padded t h]
  exact paddedRender_padded t

/-- C5 counterexample: the round trip can fail with no DST transition
involved, outside the claim's only exclusion: converting
"0500-01-02 03:04" from UTC to UTC succeeds but renders the year
without padding, and resubmitting the result from UTC back to UTC is
rejected by request validation with HTTP 422, so the round trip never
returns the original timestamp. -/
theorem round_trip_blocked_by_unpadded_year :
    post_convert_time pytzModel ⟨"0500-01-02 03:04", "UTC", "UTC"⟩ =
      .ok ⟨"500-01-02 03:04", "500-01-02 03:04", "UTC", "UTC"⟩ ∧
    postStatus (post_convert_time pytzModel ⟨"500-01-02 03:04", "UTC", "UTC"⟩) = 422 := by
  decide

/-- C10 counterexample: for the reachable request time
"0500-01-02 03:04" the platform strftime renders the year unpadded:
original_time comes back as "500-01-02 03:04", which does not match the
zero-padded pattern and differs from the fully padded submission. -/
theorem unpadded_year_in_response :
    post_convert_time pytzModel ⟨"0500-01-02 03:04", "UTC", "UTC"⟩ =
      .ok ⟨"500-01-02 03:04", "500-01-02 03:04", "UTC", "UTC"⟩ ∧
    isPaddedForm ("500-01-02 03:04") = false ∧
    "500-01-02 03:04" ≠ "0500-01-02 03:04" := by
  decide

/-- C10 (amended): in every successful /convert-time response the two
timezone fields echo the request character for character; original_time
is the request's time string re-rendered through strftime of the parsed
value, and converted_time is the strftime rendering of the converted
wall clock, where strftime zero-pads month, day, hour and minute but
renders the year unpadded; hence each time string matches the
zero-padded pattern YYYY-MM-DD HH:MM when its year has four digits, a
fully zero-padded submission with a four-digit year echoes back
unchanged, and a non-padded submission comes back re-padded, as the
closing conjunct evaluates. -/
theorem response_echo_and_format :
    (∀ (p : Pytz) (req : ConvRequest) (r : ConvResponse),
      post_convert_time p req = .ok r →
      r.source_timezone = req.source_timezone ∧
      r.target_timezone = req.target_timezone ∧
      (∃ t, parseTimeS req.time = some t ∧ r.original_time = formatDT t ∧
        (1000 ≤ t.y → isPaddedForm r.original_time = true)) ∧
      (∃ c : NaiveDT, r.converted_time = formatDT c ∧
        (1000 ≤ c.y → isPaddedForm r.converted_time = true)) ∧
      (∀ t0 : NaiveDT, dtValid t0 → 1000 ≤ t0.y → req.time = formatDT t0 →
        r.original_time = req.time)) ∧
    (post_convert_time pytzModel ⟨"2023-7-15 12:00", "UTC", "UTC"⟩ =
        .ok ⟨"2023-07-15 12:00", "2023-07-15 12:00", "UTC", "UTC"⟩ ∧
      "2023-07-15 12:00" ≠ "2023-7-15 12:00") := by
  constructor
  · intro p req r hok
    obtain ⟨-, hconv⟩ := post_convert_ok _ _ _ hok
    obtain ⟨t, src, tgt, w, i, hp, hs, ht, hl, g1, g2, g3, g4, hr⟩ :=
      convert_time_ok _ _ _ hconv
    obtain ⟨hy1, hy2, hsv⟩ := parseTimeS_dtValid _ _ hp
    have hw := localize_wall src t w i hsv hy1 hl
    subst w
    subst hr
    refine ⟨rfl, rfl, ⟨t, hp, rfl, fun hy1000 => formatDT_padded t hy1000⟩,
      ⟨fromutc tgt (addMin t (-i.off)), rfl, fun hy1000 => formatDT_padded _ hy1000⟩, ?_⟩
    intro t0 hv0 hy0 he0
    rw [he0, parse_formatDT t0 hv0 hy0] at hp
    injection hp with e
    subst e
    dsimp only
    exact he0.symm
  · exact ⟨by decide, by decide⟩

/-- C10 amended, witnessed on the concrete Kolkata conversion: the
response echoes the source zone and the padded submission comes back
unchanged. -/
theorem response_echo_and_format_witness :
    (⟨"2023-07-15 12:00", "2023-07-15 17:30", "UTC", "Asia/Kolkata"⟩ :
      ConvResponse).source_timezone = "UTC" ∧
    (⟨"2023-07-15 12:00", "2023-07-15 17:30", "UTC", "Asia/Kolkata"⟩ :
      ConvResponse).original_time = "2023-07-15 12:00" := by
  have h := response_echo_and_format.1 pytzModel
    ⟨"2023-07-15 12:00", "UTC", "Asia/Kolkata"⟩
    ⟨"2023-07-15 12:00", "2023-07-15 17:30", "UTC", "Asia/Kolkata"⟩ (by decide)
  exact ⟨h.1, h.2.2.2.2 ⟨2023, 7, 15, 12, 0⟩ (by decide) (by decide) (by decide)⟩
